import Mathlib

/-!
# Verification of the persistence model (`backend/api/models/db.py`)

Shallow embedding of the SQLAlchemy declarative model: the `user`,
`user_setting` and `conversation` tables, the custom column adapters
(`UTCDateTime`, `Pydantic`), and the single-table polymorphic
conversation hierarchy (`BaseConversation` / `RevConversation` /
`ApiConversation`).

Machine conventions: integer primary keys are `Nat`; 128-bit UUIDs are
`Nat`; the SQL `Float` credits column is modelled as `Rat`; database
tables are lists of rows; constraint-checked inserts return `Except`.
-/

/-- Modelled from the spec: the conversation-activity status enumeration
(`RevChatStatus` in `api.enums`) is externally supplied and not under
`src/`; `db.py` names its `idling` member as the column default, the
other members are representative active states. -/
inductive RevChatStatus
  | asking
  | queueing
  | idling
deriving DecidableEq

/-- The polymorphic identities declared by the conversation hierarchy in
`db.py`: `"base"` on `BaseConversation`, `"rev"` on `RevConversation`,
`"api"` on `ApiConversation` (the `polymorphic_on` discriminator
column's value set, as declared in the mapper args). -/
inductive ChatSourceTypes
  | base
  | rev
  | api
deriving DecidableEq

/-- Modelled from the spec: `RevChatModels` (`api.enums`) is an
externally supplied closed enumeration of model-name strings for the
`rev` variant; member names are representative. -/
def RevChatModels : List String :=
  ["text-davinci-002-render-sha", "gpt-4-browsing"]

/-- Modelled from the spec: `ApiChatModels` (`api.enums`) is an
externally supplied closed enumeration of model-name strings for the
`api` variant; member names are representative. -/
def ApiChatModels : List String :=
  ["gpt-3.5-turbo", "gpt-4"]

/-- `s` is a member of the `rev` variant's model enumeration. -/
def isRevModel (s : String) : Bool := RevChatModels.contains s

/-- `s` is a member of the `api` variant's model enumeration. -/
def isApiModel (s : String) : Bool := ApiChatModels.contains s

/-! ## Timestamp adapter (`UTCDateTime`)

Modelled from the spec: the adapter lives in
`api.database.custom_types`, which is not under `src/`.  A
timezone-aware datetime is a wall-clock reading plus a zone offset; the
stored form is a UTC second count plus a flag recording whether the
stored value carried zone info. -/

/-- A timezone-aware datetime: wall-clock seconds in the local zone and
the zone's offset from UTC in minutes. -/
structure AwareDateTime where
  wall : Int
  offsetMinutes : Int
deriving DecidableEq

/-- The absolute instant an aware datetime denotes, as UTC seconds. -/
def AwareDateTime.instant (t : AwareDateTime) : Int :=
  t.wall - t.offsetMinutes * 60

/-- The storage-side form of a timestamp: a UTC second count and whether
the stored value carries zone info. -/
structure StoredDateTime where
  utcSeconds : Int
  hasTz : Bool
deriving DecidableEq

/-- Modelled from the spec: on encode the `UTCDateTime` adapter
normalizes the aware datetime to UTC (converting, not truncating: the
stored count is the absolute instant). -/
def UTCDateTime.encode (t : AwareDateTime) : StoredDateTime :=
  { utcSeconds := t.instant, hasTz := true }

/-- Modelled from the spec: on decode the adapter returns an aware UTC
datetime, reattaching UTC when the stored value lacks zone info. -/
def UTCDateTime.decode (s : StoredDateTime) : AwareDateTime :=
  { wall := s.utcSeconds, offsetMinutes := 0 }

/-! ## Structured-settings adapter (`Pydantic` column type)

Modelled from the spec: the adapter (`api.database.custom_types`) and
the two schemas (`api.schema`) are not under `src/`.  A schema is a
fixed ordered list of named, typed fields; a settings object is a list
of named field values; encode serializes to a character blob; decode
parses the blob and re-validates against the expected schema. -/

/-- The field types the modelled schemas use. -/
inductive FieldType
  | tNat
  | tBool
deriving DecidableEq

/-- A field value of a structured-settings object. -/
inductive FieldVal
  | vNat (n : Nat)
  | vBool (b : Bool)
deriving DecidableEq

/-- The type of a field value. -/
def FieldVal.typeOf : FieldVal → FieldType
  | .vNat _ => .tNat
  | .vBool _ => .tBool

/-- A schema descriptor: field names with their expected types, in
order. -/
abbrev SchemaDesc := List (String × FieldType)

/-- A structured-settings object: named field values, in order. -/
abbrev SettingsObj := List (String × FieldVal)

/-- The signature of a settings object: its field names and types. -/
def objSig (o : SettingsObj) : SchemaDesc :=
  o.map fun p => (p.1, p.2.typeOf)

/-- `o` is a valid instance of schema `sd`: its fields match the
schema's names and types exactly. -/
def validFor (sd : SchemaDesc) (o : SettingsObj) : Prop :=
  objSig o = sd

instance (sd : SchemaDesc) (o : SettingsObj) : Decidable (validFor sd o) := by
  unfold validFor
  infer_instance

/-! ## Error taxonomy -/

/-- The errors the model surfaces (spec section 7). -/
inductive DBError
  | UniqueConstraintViolation
  | ForeignKeyViolation
  | InvalidModelForVariant
  | SettingsDeserializationError
deriving DecidableEq

/-! ## Rows (from `db.py`) -/

/-- A row of the `user` table (`class User` in `db.py`). -/
structure User where
  id : Nat
  username : String
  nickname : String
  email : String
  rev_chat_status : RevChatStatus
  last_active_time : Option AwareDateTime
  create_time : AwareDateTime
  avatar : Option String
  valid_until : Option AwareDateTime
  remark : Option String
  is_superuser : Bool
  is_active : Bool
  is_verified : Bool
  hashed_password : String
deriving DecidableEq

/-- A row of the `user_setting` table (`class UserSetting` in `db.py`).
`user_id` is a foreign key to `user.id`; as in the source it carries no
uniqueness constraint.  The `Float` credits column is modelled as `Rat`;
the two `Pydantic` columns hold structured-settings objects. -/
structure UserSetting where
  id : Nat
  user_id : Nat
  credits : Rat
  rev : SettingsObj
  api : SettingsObj
deriving DecidableEq

/-- A row of the single `conversation` table (`class BaseConversation`
in `db.py`): the `type` discriminator, the globally unique external
`conversation_id`, the single shared `current_model` column (a plain
optional string), and the remaining metadata columns. -/
structure BaseConversation where
  id : Nat
  type : ChatSourceTypes
  conversation_id : Nat
  current_model : Option String
  title : Option String
  user_id : Option Nat
  is_valid : Bool
  create_time : Option AwareDateTime
  update_time : Option AwareDateTime
deriving DecidableEq

/-- What the one physical `current_model` column accepts on a row of
the given variant.  `RevConversation` and `ApiConversation` redeclare
the column with `Enum(RevChatModels)` / `Enum(ApiChatModels)`, but
every declaration passes `use_existing_column=True`, so the subclasses
map onto the existing plain-`String` column `BaseConversation` creates
and the subclass `Enum` types are discarded: the column accepts any
optional string on a row of any variant. -/
def modelValid : ChatSourceTypes → Option String → Bool :=
  fun _ _ => true

/-! ## Database state and operations -/

/-- The three physical tables. -/
structure DBState where
  users : List User
  user_settings : List UserSetting
  conversations : List BaseConversation
deriving DecidableEq

/-- The empty database. -/
def emptyDB : DBState := { users := [], user_settings := [], conversations := [] }

/-- The creation payload for a user: every column the caller supplies.
`rev_chat_status` is optional because the column has a default
(`default=RevChatStatus.idling` in `db.py`); `create_time` is absent
because the column is server-assigned (`server_default=func.now()`). -/
structure NewUser where
  id : Nat
  username : String
  nickname : String
  email : String
  rev_chat_status : Option RevChatStatus
  last_active_time : Option AwareDateTime
  avatar : Option String
  valid_until : Option AwareDateTime
  remark : Option String
  is_superuser : Bool
  is_active : Bool
  is_verified : Bool
  hashed_password : String
deriving DecidableEq

/-- Resolve column defaults for a new user row: `rev_chat_status`
defaults to `RevChatStatus.idling`, `create_time` is assigned the
server's current time. -/
def mkUser (input : NewUser) (now : AwareDateTime) : User :=
  { id := input.id
    username := input.username
    nickname := input.nickname
    email := input.email
    rev_chat_status := input.rev_chat_status.getD RevChatStatus.idling
    last_active_time := input.last_active_time
    create_time := now
    avatar := input.avatar
    valid_until := input.valid_until
    remark := input.remark
    is_superuser := input.is_superuser
    is_active := input.is_active
    is_verified := input.is_verified
    hashed_password := input.hashed_password }

/-- Insert a user row, enforcing the primary-key constraint on `id` and
the unique constraint on `username` (`unique=True` in `db.py`). -/
def insertUser (db : DBState) (u : User) : Except DBError DBState :=
  if db.users.any fun t => t.id == u.id || t.username == u.username then
    .error .UniqueConstraintViolation
  else
    .ok { db with users := db.users ++ [u] }

/-- Insert a user-setting row, enforcing the primary-key constraint on
`id` and the foreign-key constraint on `user_id`.  As in `db.py`,
`user_id` carries no uniqueness constraint. -/
def insertUserSetting (db : DBState) (s : UserSetting) : Except DBError DBState :=
  if db.user_settings.any fun t => t.id == s.id then
    .error .UniqueConstraintViolation
  else if db.users.any fun u => u.id == s.user_id then
    .ok { db with user_settings := db.user_settings ++ [s] }
  else
    .error .ForeignKeyViolation

/-- Insert a conversation row, enforcing the primary-key constraint on
`id`, the unique constraint on `conversation_id` (`unique=True` in
`db.py`), and the nullable foreign key on `user_id`.  The shared
`current_model` string column carries no per-variant constraint. -/
def insertConversation (db : DBState) (c : BaseConversation) : Except DBError DBState :=
  if db.conversations.any fun t => t.id == c.id then
    .error .UniqueConstraintViolation
  else if db.conversations.any fun t => t.conversation_id == c.conversation_id then
    .error .UniqueConstraintViolation
  else
    match c.user_id with
    | none => .ok { db with conversations := db.conversations ++ [c] }
    | some uid =>
      if db.users.any fun u => u.id == uid then
        .ok { db with conversations := db.conversations ++ [c] }
      else
        .error .ForeignKeyViolation

/-- Invalidate the conversation with the given external identifier: the
row is kept and only its `is_valid` flag is cleared. -/
def invalidateConversation (db : DBState) (cid : Nat) : DBState :=
  { db with
    conversations := db.conversations.map fun c =>
      if c.conversation_id == cid then { c with is_valid := false } else c }

/-- Modelled from the spec: the user-creation operation (service-layer
code, not under `src/`) constructs the user row together with exactly
one paired `UserSetting` row; the settings row's `credits` takes the
column default `0` declared in `db.py`, and the caller supplies the two
required structured-settings objects. -/
def createUser (db : DBState) (input : NewUser) (now : AwareDateTime)
    (sid : Nat) (revSettings apiSettings : SettingsObj) : Except DBError DBState :=
  match insertUser db (mkUser input now) with
  | .error e => .error e
  | .ok db1 =>
    insertUserSetting db1
      { id := sid, user_id := input.id, credits := 0
        rev := revSettings, api := apiSettings }

/-- Read a user by id together with its `UserSetting`, in one operation:
`User.setting` is declared `lazy="joined"` in `db.py`, so the settings
row is materialized by the same read. -/
def readUser (db : DBState) (uid : Nat) : Option (User × Option UserSetting) :=
  match db.users.find? fun u => u.id == uid with
  | none => none
  | some u => some (u, db.user_settings.find? fun s => s.user_id == uid)

/-- The mutations the conversation model exposes on an existing row
(spec lifecycle: `current_model`, `title`, `is_valid`, `update_time`);
the `type` discriminator is not among them. -/
inductive ConvMutation
  | setModel (v : Option String)
  | setTitle (t : Option String)
  | invalidate
  | setUpdateTime (t : AwareDateTime)
deriving DecidableEq

/-- Set a conversation's `current_model`.  The shared column is a plain
optional string (the subclass enum types are discarded by
`use_existing_column=True`), so the assignment performs no per-variant
validation and always succeeds; the `Except` return is the operation
interface shared with the other mutations. -/
def setCurrentModel (c : BaseConversation) (v : Option String) :
    Except DBError BaseConversation :=
  .ok { c with current_model := v }

/-- Apply a mutation to a conversation row. -/
def applyMutation : ConvMutation → BaseConversation → Except DBError BaseConversation
  | .setModel v, c => setCurrentModel c v
  | .setTitle t, c => .ok { c with title := t }
  | .invalidate, c => .ok { c with is_valid := false }
  | .setUpdateTime t, c => .ok { c with update_time := some t }

/-! ## Theorems -/

/-- The external identifiers currently present in the conversation
table. -/
def convIds (db : DBState) : List Nat :=
  db.conversations.map fun c => c.conversation_id

/-- An example `rev`-variant conversation row. -/
def convRevExample : BaseConversation :=
  { id := 1, type := ChatSourceTypes.rev, conversation_id := 100
    current_model := some "gpt-4-browsing", title := some "t", user_id := none
    is_valid := true, create_time := none, update_time := none }

/-- An example `base`-identity conversation row whose `current_model`
belongs to neither variant's enumeration. -/
def convBaseExample : BaseConversation :=
  { id := 1, type := ChatSourceTypes.base, conversation_id := 100
    current_model := some "llama-2-70b", title := none, user_id := none
    is_valid := true, create_time := none, update_time := none }

/-- An example user row. -/
def aliceUser : User :=
  { id := 1, username := "alice", nickname := "Alice", email := "alice@example.com"
    rev_chat_status := RevChatStatus.idling, last_active_time := none
    create_time := { wall := 0, offsetMinutes := 0 }, avatar := none
    valid_until := none, remark := none, is_superuser := false
    is_active := true, is_verified := true, hashed_password := "h" }

/-- A first settings row for the example user. -/
def aliceSetting1 : UserSetting :=
  { id := 1, user_id := 1, credits := 0, rev := [], api := [] }

/-- A second settings row for the same user (fresh primary key, same
foreign key). -/
def aliceSetting2 : UserSetting :=
  { id := 2, user_id := 1, credits := 0, rev := [], api := [] }

/-- A database holding the example user and their settings row. -/
def dbWithAliceSetting : DBState :=
  { users := [aliceUser], user_settings := [aliceSetting1], conversations := [] }

/-- Every settings row's foreign key resolves to an existing user. -/
def settingsFKok (db : DBState) : Bool :=
  db.user_settings.all fun s => db.users.any fun u => u.id == s.user_id

/-- The creation payload for the example user `"alice"`. -/
def aliceInput : NewUser :=
  { id := 1, username := "alice", nickname := "Alice", email := "alice@example.com"
    rev_chat_status := none, last_active_time := none, avatar := none
    valid_until := none, remark := none, is_superuser := false
    is_active := true, is_verified := true, hashed_password := "h" }

/-- A concrete server time. -/
def epochTime : AwareDateTime := { wall := 0, offsetMinutes := 0 }

/-- The database state after creating `"alice"` in the empty database. -/
def aliceCreatedDB : DBState :=
  { users := [mkUser aliceInput epochTime]
    user_settings := [{ id := 1, user_id := 1, credits := 0, rev := [], api := [] }]
    conversations := [] }

/-- The character for a decimal digit. -/
def digitChar (d : Nat) : Char := Char.ofNat (48 + d)

/-- The decimal digit a character denotes. -/
def charDigit (c : Char) : Nat := c.toNat - 48

/-- Decimal-digit character test. -/
def isDigitCh (c : Char) : Bool := decide (48 ≤ c.toNat) && decide (c.toNat ≤ 57)

/-- Serialize a natural number as decimal digits, most significant
first. -/
def serNat (n : Nat) : List Char :=
  if n = 0 then ['0'] else ((Nat.digits 10 n).map digitChar).reverse

/-- Parse decimal digit characters (most significant first) into a
natural number. -/
def parseNatDigits (l : List Char) : Nat :=
  Nat.ofDigits 10 ((l.map charDigit).reverse)

/-- Serialize one field value. -/
def serVal : FieldVal → List Char
  | .vNat n => serNat n
  | .vBool true => ['t', 'r', 'u', 'e']
  | .vBool false => ['f', 'a', 'l', 's', 'e']

/-- Parse a field value of the expected type; `none` when the characters
do not denote a value of that type. -/
def parseVal : FieldType → List Char → Option FieldVal
  | .tNat, l =>
    if l.isEmpty then none
    else if l.all isDigitCh then some (.vNat (parseNatDigits l)) else none
  | .tBool, l =>
    if l = ['t', 'r', 'u', 'e'] then some (.vBool true)
    else if l = ['f', 'a', 'l', 's', 'e'] then some (.vBool false)
    else none

/-- Strip an expected literal from the front of the input; `none` when
the input does not start with it. -/
def stripLit : List Char → List Char → Option (List Char)
  | [], l => some l
  | _ :: _, [] => none
  | c :: p, x :: l => if x = c then stripLit p l else none

/-- Take characters up to the next field terminator `;`, consuming it;
`none` when no terminator remains. -/
def takeVal : List Char → Option (List Char × List Char)
  | [] => none
  | c :: l =>
    if c = ';' then some ([], l)
    else
      match takeVal l with
      | none => none
      | some (v, rest) => some (c :: v, rest)

/-- Encode a settings object to its storage blob: each field as
`name=value;`. -/
def encodeFields : SettingsObj → List Char
  | [] => []
  | (name, v) :: o => (name.toList ++ ['=']) ++ (serVal v ++ ';' :: encodeFields o)

/-- Decode one `name=value;` field of the expected name and type from
the front of the blob, returning the value and the remaining input. -/
def decodeField (ty : FieldType) (name : String) (l : List Char) :
    Option (FieldVal × List Char) :=
  (stripLit (name.toList ++ ['=']) l).bind fun l1 =>
    (takeVal l1).bind fun pr =>
      (parseVal ty pr.1).map fun fv => (fv, pr.2)

/-- Decode a storage blob against an expected schema, re-validating
field names and types; any missing field, wrongly typed field or
unparseable content yields `SettingsDeserializationError`. -/
def decodeFields : SchemaDesc → List Char → Except DBError SettingsObj
  | [], l => if l.isEmpty then .ok [] else .error .SettingsDeserializationError
  | (name, ty) :: sd, l =>
    (decodeField ty name l).elim (.error .SettingsDeserializationError)
      fun pr => (decodeFields sd pr.2).map fun fields => (name, pr.1) :: fields

/-- Modelled from the spec: `RevSourceSettingSchema` (`api.schema`, not
under `src/`) is a fixed named-field schema for the `rev` backend;
field names are representative. -/
def RevSourceSettingSchema : SchemaDesc :=
  [("is_plus_account", FieldType.tBool), ("available_ask_count", FieldType.tNat)]

/-- Modelled from the spec: `ApiSourceSettingSchema` (`api.schema`, not
under `src/`) is a fixed named-field schema for the `api` backend;
field names are representative. -/
def ApiSourceSettingSchema : SchemaDesc :=
  [("allow_to_use", FieldType.tBool), ("available_ask_count", FieldType.tNat)]

/-- A valid example object of the `rev` schema. -/
def revSettingsExample : SettingsObj :=
  [("is_plus_account", FieldVal.vBool true), ("available_ask_count", FieldVal.vNat 42)]

/-- Invalidation changes neither the set of internal primary keys nor
the set of external identifiers: the row stays, only `is_valid` flips. -/
theorem anyMapInvariant {α : Type} (l : List α) (g : α → α) (p : α → Bool)
    (h : ∀ a, p (g a) = p a) : (l.map g).any p = l.any p := by
  induction l with
  | nil => rfl
  | cons a l ih => simp [h, ih]

theorem invalidate_preserves_id_checks (db : DBState) (cid : Nat) :
    (∀ k, ((invalidateConversation db cid).conversations.any fun t => t.id == k) =
      (db.conversations.any fun t => t.id == k)) ∧
    (∀ x, ((invalidateConversation db cid).conversations.any fun t => t.conversation_id == x) =
      (db.conversations.any fun t => t.conversation_id == x)) ∧
    convIds (invalidateConversation db cid) = convIds db := by
  refine ⟨?_, ?_, ?_⟩ <;>
    try intro k
  · simp only [invalidateConversation]
    apply anyMapInvariant
    intro c
    by_cases h : c.conversation_id == cid <;> simp [h]
  · simp only [invalidateConversation]
    apply anyMapInvariant
    intro c
    by_cases h : c.conversation_id == cid <;> simp [h]
  · simp only [invalidateConversation, convIds, List.map_map]
    apply List.map_congr_left
    intro c _
    by_cases h : c.conversation_id == cid <;> simp [h, Function.comp]

/-- C4: for every timezone-aware timestamp `t`, encoding then decoding
through the `UTCDateTime` adapter yields a UTC timestamp (offset zero)
denoting the same absolute instant as `t`: a non-UTC zone is converted,
never truncated or silently shifted. -/
theorem utcDateTime_roundtrip_instant (t : AwareDateTime) :
    (UTCDateTime.decode (UTCDateTime.encode t)).offsetMinutes = 0 ∧
    (UTCDateTime.decode (UTCDateTime.encode t)).instant = t.instant := by
  refine ⟨rfl, ?_⟩
  simp [UTCDateTime.decode, UTCDateTime.encode, AwareDateTime.instant]

/-- C10: a user constructed without an explicit conversation-activity
status receives `RevChatStatus.idling`, the column default declared in
`db.py`. -/
theorem mkUser_default_status (input : NewUser) (now : AwareDateTime)
    (h : input.rev_chat_status = none) :
    (mkUser input now).rev_chat_status = RevChatStatus.idling := by
  simp [mkUser, h]

/-- Witness for C10 at a concrete input. -/
theorem mkUser_default_status_witness :
    (mkUser
      { id := 1, username := "alice", nickname := "Alice", email := "a@example.com"
        rev_chat_status := none, last_active_time := none, avatar := none
        valid_until := none, remark := none, is_superuser := false
        is_active := true, is_verified := true, hashed_password := "h" }
      { wall := 0, offsetMinutes := 0 }).rev_chat_status = RevChatStatus.idling :=
  mkUser_default_status _ _ rfl

/-- Inserting a conversation whose external identifier is already
present fails with the uniqueness violation, whatever the rest of the
row. -/
theorem insert_dup_convid (db : DBState) (c : BaseConversation)
    (h : (db.conversations.any fun t => t.conversation_id == c.conversation_id) = true) :
    insertConversation db c = .error DBError.UniqueConstraintViolation := by
  by_cases h1 : (db.conversations.any fun t => t.id == c.id) = true <;>
    simp [insertConversation, h1, h]

/-- C2: the program does not enforce the per-variant enumeration.
`"gpt-3.5-turbo"` belongs only to the `api` variant's enumeration, yet
assigning it to a `rev` conversation succeeds, and inserting a `rev`
conversation carrying it succeeds: `use_existing_column=True` maps the
subclass `Enum` redeclarations onto the single plain-`String` column,
discarding their types, so no `InvalidModelForVariant` rejection
exists. -/
theorem variant_model_not_enforced :
    isApiModel "gpt-3.5-turbo" = true ∧
    isRevModel "gpt-3.5-turbo" = false ∧
    convRevExample.type = ChatSourceTypes.rev ∧
    setCurrentModel convRevExample (some "gpt-3.5-turbo") =
      .ok { convRevExample with current_model := some "gpt-3.5-turbo" } ∧
    insertConversation emptyDB
        { convRevExample with current_model := some "gpt-3.5-turbo" } =
      .ok { emptyDB with
            conversations := [{ convRevExample with current_model := some "gpt-3.5-turbo" }] } := by
  refine ⟨by decide, by decide, rfl, rfl, rfl⟩

/-- C5: the external identifier is globally unique in the single
conversation table: inserting a row whose `conversation_id` is already
used fails with `UniqueConstraintViolation`; a successful insert makes
the identifier used; invalidating a conversation keeps every external
identifier in the table, so an invalidated conversation still blocks
reuse of its identifier. -/
theorem conversation_id_unique_and_reserved :
    (∀ (db : DBState) (c : BaseConversation),
      (db.conversations.any fun t => t.conversation_id == c.conversation_id) = true →
      insertConversation db c = .error DBError.UniqueConstraintViolation) ∧
    (∀ (db : DBState) (c : BaseConversation) (db2 : DBState),
      insertConversation db c = .ok db2 →
      (db2.conversations.any fun t => t.conversation_id == c.conversation_id) = true) ∧
    (∀ (db : DBState) (cid : Nat),
      convIds (invalidateConversation db cid) = convIds db) ∧
    (∀ (db : DBState) (c : BaseConversation) (cid : Nat),
      (db.conversations.any fun t => t.conversation_id == c.conversation_id) = true →
      insertConversation (invalidateConversation db cid) c =
        .error DBError.UniqueConstraintViolation) := by
  refine ⟨insert_dup_convid, ?_, ?_, ?_⟩
  · intro db c db2 hok
    simp only [insertConversation] at hok
    split at hok
    · exact Except.noConfusion hok
    split at hok
    · exact Except.noConfusion hok
    split at hok
    · cases hok
      simp [List.any_append]
    · split at hok
      · cases hok
        simp [List.any_append]
      · exact Except.noConfusion hok
  · intro db cid
    exact (invalidate_preserves_id_checks db cid).2.2
  · intro db c cid h
    apply insert_dup_convid
    rw [(invalidate_preserves_id_checks db cid).2.1]
    exact h

/-- Witness for C5: inserting a second conversation with external
identifier `100` fails, both before and after the first one is
invalidated. -/
theorem conversation_id_unique_and_reserved_witness :
    insertConversation { emptyDB with conversations := [convRevExample] }
      { convBaseExample with id := 2, type := ChatSourceTypes.api, current_model := none } =
      .error DBError.UniqueConstraintViolation ∧
    insertConversation
      (invalidateConversation { emptyDB with conversations := [convRevExample] } 100)
      { convBaseExample with id := 2, type := ChatSourceTypes.api, current_model := none } =
      .error DBError.UniqueConstraintViolation :=
  ⟨conversation_id_unique_and_reserved.1 _ _ (by decide),
   conversation_id_unique_and_reserved.2.2.2 _ _ 100 (by decide)⟩

/-- C8: the `type` discriminator is immutable: no mutation the
conversation model exposes changes a row's variant — every successful
mutation preserves `type` (a discriminator change is not expressible in
the mutation vocabulary). -/
theorem conversation_type_immutable :
    ∀ (m : ConvMutation) (c c2 : BaseConversation),
      applyMutation m c = .ok c2 → c2.type = c.type := by
  intro m c c2 hok
  cases m with
  | setModel v =>
    simp only [applyMutation, setCurrentModel, Except.ok.injEq] at hok
    subst hok
    rfl
  | setTitle t =>
    simp only [applyMutation, Except.ok.injEq] at hok
    subst hok
    rfl
  | invalidate =>
    simp only [applyMutation, Except.ok.injEq] at hok
    subst hok
    rfl
  | setUpdateTime t =>
    simp only [applyMutation, Except.ok.injEq] at hok
    subst hok
    rfl

/-- Witness for C8: switching the model of a `rev` row within its legal
set leaves the discriminator unchanged. -/
theorem conversation_type_immutable_witness :
    ({ convRevExample with current_model := some "text-davinci-002-render-sha" } :
      BaseConversation).type = convRevExample.type :=
  conversation_type_immutable
    (ConvMutation.setModel (some "text-davinci-002-render-sha"))
    convRevExample _ rfl

/-- C9: the hierarchy admits a third row shape: the mapper declares the
`base` polymorphic identity, a `base`-identity row passes every insert
constraint, and its `current_model` is an unconstrained optional string
— the example value belongs to neither variant's enumeration. -/
theorem base_identity_row_unconstrained :
    (∀ v : Option String, modelValid ChatSourceTypes.base v = true) ∧
    isRevModel "llama-2-70b" = false ∧
    isApiModel "llama-2-70b" = false ∧
    insertConversation emptyDB convBaseExample =
      .ok { emptyDB with conversations := [convBaseExample] } := by
  refine ⟨fun v => rfl, by decide, by decide, rfl⟩

/-- C1 counterexample: `user_setting.user_id` carries no uniqueness
constraint in `db.py`, so inserting a second `UserSetting` for a user
who already has one succeeds — it does not fail with
`UniqueConstraintViolation` as the claim states. -/
theorem userSetting_second_insert_accepted :
    insertUserSetting dbWithAliceSetting aliceSetting2 =
      .ok { dbWithAliceSetting with user_settings := [aliceSetting1, aliceSetting2] } ∧
    insertUserSetting dbWithAliceSetting aliceSetting2 ≠
      .error DBError.UniqueConstraintViolation := by
  refine ⟨rfl, ?_⟩
  intro h
  rw [show insertUserSetting dbWithAliceSetting aliceSetting2 =
      .ok { dbWithAliceSetting with user_settings := [aliceSetting1, aliceSetting2] } from rfl] at h
  exact Except.noConfusion h

/-- C1 (amended): the `user_setting` foreign key is not unique: for any
settings row with a fresh primary key and an existing owner, insertion
succeeds even when the owner already has a settings row. -/
theorem userSetting_fk_not_unique :
    ∀ (db : DBState) (s : UserSetting),
      (db.user_settings.any fun t => t.id == s.id) = false →
      (db.users.any fun u => u.id == s.user_id) = true →
      (db.user_settings.any fun t => t.user_id == s.user_id) = true →
      insertUserSetting db s = .ok { db with user_settings := db.user_settings ++ [s] } := by
  intro db s h1 h2 _
  simp [insertUserSetting, h1, h2]

/-- Witness for C1 (amended) at the concrete example. -/
theorem userSetting_fk_not_unique_witness :
    insertUserSetting dbWithAliceSetting aliceSetting2 =
      .ok { dbWithAliceSetting with
            user_settings := dbWithAliceSetting.user_settings ++ [aliceSetting2] } :=
  userSetting_fk_not_unique dbWithAliceSetting aliceSetting2 (by decide) (by decide) (by decide)

/-- C6: creating a user creates exactly one paired `UserSetting`
alongside it, and that settings row's credit balance is the column
default `0`. -/
theorem createUser_one_setting :
    ∀ (db : DBState) (input : NewUser) (now : AwareDateTime) (sid : Nat)
      (rset aset : SettingsObj) (db2 : DBState),
      settingsFKok db = true →
      createUser db input now sid rset aset = .ok db2 →
      (db2.user_settings.filter fun s => s.user_id == input.id).length = 1 ∧
      (∀ s ∈ db2.user_settings, s.user_id = input.id → s.credits = 0) := by
  intro db input now sid rset aset db2 hwf hok
  by_cases hu : (db.users.any fun t =>
      t.id == (mkUser input now).id || t.username == (mkUser input now).username) = true
  · simp [createUser, insertUser, hu] at hok
  · have hins : insertUser db (mkUser input now) =
        .ok { db with users := db.users ++ [mkUser input now] } := by
      simp only [insertUser, hu]
      simp [hu]
    simp only [createUser, hins] at hok
    by_cases hs : (db.user_settings.any fun t => t.id == sid) = true
    · simp [insertUserSetting, hs] at hok
    · have hfk : ((db.users ++ [mkUser input now]).any fun u => u.id == input.id) = true := by
        simp [List.any_append, mkUser]
      simp only [insertUserSetting] at hok
      simp only [List.any_append] at hfk
      simp [hs, hfk, List.any_append, mkUser] at hok
      have hold : ∀ s ∈ db.user_settings, (s.user_id == input.id) = false := by
        intro s hmem
        rw [beq_eq_false_iff_ne]
        intro heq
        simp only [settingsFKok] at hwf
        have hex : ∃ u, u ∈ db.users ∧ (u.id == s.user_id) = true := by
          have := List.all_eq_true.mp hwf s hmem
          simpa using List.any_eq_true.mp this
        obtain ⟨u, humem, hub⟩ := hex
        have huid : u.id = input.id := heq ▸ eq_of_beq hub
        have : (db.users.any fun t =>
            t.id == (mkUser input now).id || t.username == (mkUser input now).username) = true := by
          apply List.any_eq_true.mpr
          refine ⟨u, humem, ?_⟩
          simp [mkUser, huid]
        exact hu this
      subst hok
      constructor
      · simp only [List.filter_append]
        have h1 : db.user_settings.filter (fun s => s.user_id == input.id) = [] :=
          List.filter_eq_nil_iff.mpr fun s hmem => by simp [hold s hmem]
        rw [h1]
        simp
      · intro s hmem hsid
        simp only [List.mem_append] at hmem
        rcases hmem with hmem | hmem
        · exact absurd (beq_iff_eq.mpr hsid) (Bool.eq_false_iff.mp (hold s hmem))
        · simp only [List.mem_singleton] at hmem
          subst hmem
          rfl

/-- Witness for C6: creating `"alice"` in the empty database yields
exactly one settings row, with zero credits. -/
theorem createUser_one_setting_witness :
    createUser emptyDB aliceInput epochTime 1 [] [] = .ok aliceCreatedDB ∧
    (aliceCreatedDB.user_settings.filter fun s => s.user_id == aliceInput.id).length = 1 ∧
    (∀ s ∈ aliceCreatedDB.user_settings, s.user_id = aliceInput.id → s.credits = 0) :=
  ⟨rfl,
   createUser_one_setting emptyDB aliceInput epochTime 1 [] [] aliceCreatedDB (by decide) rfl⟩

/-- C7: reading a user materializes its `UserSetting` in the same read:
the single `readUser` operation returns the user together with the
settings lookup's result, and whenever a settings row for that user
exists the returned pair already carries it. -/
theorem readUser_materializes_setting :
    ∀ (db : DBState) (uid : Nat),
      (db.users.any fun u => u.id == uid) = true →
      ∃ u os, readUser db uid = some (u, os) ∧ u.id = uid ∧
        os = db.user_settings.find? (fun s => s.user_id == uid) ∧
        ((db.user_settings.any fun s => s.user_id == uid) = true → os.isSome = true) := by
  intro db uid h
  have hex : ∃ u ∈ db.users, (u.id == uid) = true := List.any_eq_true.mp h
  have hfind : (db.users.find? fun u => u.id == uid).isSome = true := by
    rw [List.find?_isSome]
    obtain ⟨u, hmem, hu⟩ := hex
    exact ⟨u, hmem, hu⟩
  obtain ⟨u, hu⟩ := Option.isSome_iff_exists.mp hfind
  refine ⟨u, db.user_settings.find? fun s => s.user_id == uid, ?_, ?_, rfl, ?_⟩
  · simp [readUser, hu]
  · have hp := List.find?_some hu
    simp only [] at hp
    exact eq_of_beq hp
  · intro hs
    rw [List.find?_isSome]
    exact List.any_eq_true.mp hs

/-- Witness for C7 at the concrete example database. -/
theorem readUser_materializes_setting_witness :
    ∃ u os, readUser dbWithAliceSetting 1 = some (u, os) ∧ u.id = 1 ∧
      os = dbWithAliceSetting.user_settings.find? (fun s => s.user_id == 1) ∧
      ((dbWithAliceSetting.user_settings.any fun s => s.user_id == 1) = true →
        os.isSome = true) :=
  readUser_materializes_setting dbWithAliceSetting 1 (by decide)

/-- A non-empty list is not `isEmpty`. -/
theorem isEmpty_false_of_ne_nil {l : List Char} (h : l ≠ []) : l.isEmpty = false := by
  cases l with
  | nil => exact absurd rfl h
  | cons c t => rfl

/-- Digit round trip on single digits. -/
theorem charDigit_digitChar (d : Nat) (h : d < 10) : charDigit (digitChar d) = d := by
  interval_cases d <;> decide

/-- Digit characters are never the field terminator. -/
theorem digitChar_ne_semi (d : Nat) (h : d < 10) : digitChar d ≠ ';' := by
  interval_cases d <;> decide

/-- Digit characters satisfy the digit test. -/
theorem isDigitCh_digitChar (d : Nat) (h : d < 10) : isDigitCh (digitChar d) = true := by
  interval_cases d <;> decide

/-- Every character of a serialized natural is a digit and not the
terminator. -/
theorem serNat_mem (n : Nat) : ∀ c ∈ serNat n, isDigitCh c = true ∧ c ≠ ';' := by
  intro c hc
  unfold serNat at hc
  by_cases h : n = 0
  · simp [h] at hc
    subst hc
    exact ⟨by decide, by decide⟩
  · simp only [if_neg h, List.mem_reverse, List.mem_map] at hc
    obtain ⟨d, hd, rfl⟩ := hc
    have hlt : d < 10 := Nat.digits_lt_base (by norm_num) hd
    exact ⟨isDigitCh_digitChar d hlt, digitChar_ne_semi d hlt⟩

/-- A serialized natural is never empty. -/
theorem serNat_ne_nil (n : Nat) : serNat n ≠ [] := by
  unfold serNat
  by_cases h : n = 0
  · simp [h]
  · simp [h, Nat.digits_ne_nil_iff_ne_zero]

/-- Natural-number serialization round trip. -/
theorem parseNat_serNat (n : Nat) : parseNatDigits (serNat n) = n := by
  by_cases h : n = 0
  · subst h
    decide
  · unfold serNat parseNatDigits
    rw [if_neg h]
    calc Nat.ofDigits 10 ((((Nat.digits 10 n).map digitChar).reverse.map charDigit).reverse)
        = Nat.ofDigits 10 ((((Nat.digits 10 n).map digitChar).map charDigit).reverse.reverse) := by
          rw [List.map_reverse]
      _ = Nat.ofDigits 10 (((Nat.digits 10 n).map digitChar).map charDigit) := by
          rw [List.reverse_reverse]
      _ = Nat.ofDigits 10 ((Nat.digits 10 n).map (charDigit ∘ digitChar)) := by
          rw [List.map_map]
      _ = Nat.ofDigits 10 (Nat.digits 10 n) := by
          have hid : ∀ d ∈ Nat.digits 10 n, (charDigit ∘ digitChar) d = id d := by
            intro d hd
            simp only [Function.comp, id]
            exact charDigit_digitChar d (Nat.digits_lt_base (by norm_num) hd)
          rw [List.map_congr_left hid, List.map_id]
      _ = n := Nat.ofDigits_digits 10 n

/-- Field-value serialization round trip. -/
theorem parseVal_serVal (v : FieldVal) : parseVal v.typeOf (serVal v) = some v := by
  cases v with
  | vNat n =>
    have h1 : (serNat n).isEmpty = false := isEmpty_false_of_ne_nil (serNat_ne_nil n)
    have h2 : (serNat n).all isDigitCh = true :=
      List.all_eq_true.mpr fun c hc => (serNat_mem n c hc).1
    simp [parseVal, FieldVal.typeOf, serVal, h1, h2, parseNat_serNat]
  | vBool b => cases b <;> decide

/-- No character of a serialized field value is the terminator. -/
theorem serVal_ne_semi (v : FieldVal) : ∀ c ∈ serVal v, c ≠ ';' := by
  cases v with
  | vNat n => exact fun c hc => (serNat_mem n c hc).2
  | vBool b =>
    cases b <;>
      · intro c hc heq
        subst heq
        simp [serVal] at hc

/-- Stripping a literal it starts with succeeds. -/
theorem stripLit_append (p l : List Char) : stripLit p (p ++ l) = some l := by
  induction p with
  | nil => rfl
  | cons c p ih => simp [stripLit, ih]

/-- Variant of `stripLit_append` in cons-normalized form. -/
theorem stripLit_append_cons (p : List Char) (c : Char) (l : List Char) :
    stripLit (p ++ [c]) (p ++ c :: l) = some l := by
  have h : p ++ c :: l = (p ++ [c]) ++ l := by simp
  rw [h, stripLit_append]

/-- Taking a value whose characters avoid the terminator stops exactly
at the terminator. -/
theorem takeVal_append (v rest : List Char) (h : ∀ c ∈ v, c ≠ ';') :
    takeVal (v ++ ';' :: rest) = some (v, rest) := by
  induction v with
  | nil => simp [takeVal]
  | cons c t ih =>
    have hc : c ≠ ';' := h c (by simp)
    simp [takeVal, hc, ih fun x hx => h x (by simp [hx])]

/-- A parsed field value has the expected type. -/
theorem parseVal_typeOf (ty : FieldType) (v : List Char) (fv : FieldVal)
    (h : parseVal ty v = some fv) : fv.typeOf = ty := by
  cases ty <;> simp only [parseVal] at h
  · by_cases h1 : v.isEmpty = true
    · rw [if_pos h1] at h
      exact Option.noConfusion h
    · rw [if_neg h1] at h
      by_cases h2 : v.all isDigitCh = true
      · rw [if_pos h2] at h
        cases h
        rfl
      · rw [if_neg h2] at h
        exact Option.noConfusion h
  · by_cases h1 : v = ['t', 'r', 'u', 'e']
    · rw [if_pos h1] at h
      cases h
      rfl
    · rw [if_neg h1] at h
      by_cases h2 : v = ['f', 'a', 'l', 's', 'e']
      · rw [if_pos h2] at h
        cases h
        rfl
      · rw [if_neg h2] at h
        exact Option.noConfusion h

/-- Decoding a field from its own encoding succeeds with the encoded
value. -/
theorem decodeField_encode (ty : FieldType) (name : String) (v : FieldVal)
    (rest : List Char) (h : v.typeOf = ty) :
    decodeField ty name ((name.toList ++ ['=']) ++ (serVal v ++ ';' :: rest)) =
      some (v, rest) := by
  subst h
  simp [decodeField, stripLit_append, stripLit_append_cons,
    takeVal_append _ _ (serVal_ne_semi v), parseVal_serVal]

/-- A decoded field value has the expected type. -/
theorem decodeField_typeOf (ty : FieldType) (name : String) (l : List Char)
    (fv : FieldVal) (rest : List Char)
    (h : decodeField ty name l = some (fv, rest)) : fv.typeOf = ty := by
  simp only [decodeField] at h
  cases hstrip : stripLit (name.toList ++ ['=']) l with
  | none =>
    rw [hstrip] at h
    simp at h
  | some l1 =>
    rw [hstrip] at h
    simp only [Option.some_bind] at h
    cases htake : takeVal l1 with
    | none =>
      rw [htake] at h
      simp at h
    | some pr =>
      rw [htake] at h
      simp only [Option.some_bind] at h
      cases hparse : parseVal ty pr.1 with
      | none =>
        rw [hparse] at h
        simp at h
      | some fv2 =>
        rw [hparse] at h
        simp only [Option.map_some'] at h
        injection h with h2
        injection h2 with ha hb
        exact ha ▸ parseVal_typeOf ty pr.1 fv2 hparse

/-- Round trip: decoding the encoding of an object against the object's
own signature returns the object. -/
theorem decodeFields_encodeFields (o : SettingsObj) :
    decodeFields (objSig o) (encodeFields o) = .ok o := by
  induction o with
  | nil => rfl
  | cons p o ih =>
    obtain ⟨name, v⟩ := p
    show decodeFields ((name, v.typeOf) :: objSig o)
        ((name.toList ++ ['=']) ++ (serVal v ++ ';' :: encodeFields o)) = .ok ((name, v) :: o)
    simp only [decodeFields, decodeField_encode v.typeOf name v _ rfl, Option.elim, ih,
      Except.map]

/-- Soundness: a successful decode yields an object whose signature is
the expected schema. -/
theorem decodeFields_sig (sd : SchemaDesc) :
    ∀ (l : List Char) (o : SettingsObj), decodeFields sd l = .ok o → objSig o = sd := by
  induction sd with
  | nil =>
    intro l o h
    simp only [decodeFields] at h
    by_cases he : l.isEmpty = true
    · rw [if_pos he] at h
      cases h
      rfl
    · rw [if_neg he] at h
      exact Except.noConfusion h
  | cons p sd ih =>
    obtain ⟨name, ty⟩ := p
    intro l o h
    simp only [decodeFields] at h
    cases hfield : decodeField ty name l with
    | none =>
      rw [hfield] at h
      simp [Option.elim] at h
    | some pr =>
      obtain ⟨fv, rest⟩ := pr
      rw [hfield] at h
      simp only [Option.elim] at h
      cases hdec : decodeFields sd rest with
      | error e =>
        rw [hdec] at h
        simp [Except.map] at h
      | ok fields =>
        rw [hdec] at h
        simp only [Except.map] at h
        cases h
        have hty : fv.typeOf = ty := decodeField_typeOf ty name l fv rest hfield
        have hsig := ih rest fields hdec
        calc objSig ((name, fv) :: fields) = (name, fv.typeOf) :: objSig fields := rfl
          _ = (name, ty) :: sd := by rw [hty, hsig]

/-- Every decode failure surfaces as `SettingsDeserializationError`. -/
theorem decodeFields_error (sd : SchemaDesc) :
    ∀ (l : List Char) (e : DBError), decodeFields sd l = .error e →
      e = DBError.SettingsDeserializationError := by
  induction sd with
  | nil =>
    intro l e h
    simp only [decodeFields] at h
    by_cases he : l.isEmpty = true
    · rw [if_pos he] at h
      exact Except.noConfusion h
    · rw [if_neg he] at h
      cases h
      rfl
  | cons p sd ih =>
    obtain ⟨name, ty⟩ := p
    intro l e h
    simp only [decodeFields] at h
    cases hfield : decodeField ty name l with
    | none =>
      rw [hfield] at h
      simp only [Option.elim] at h
      cases h
      rfl
    | some pr =>
      obtain ⟨fv, rest⟩ := pr
      rw [hfield] at h
      simp only [Option.elim] at h
      cases hdec : decodeFields sd rest with
      | error e2 =>
        rw [hdec] at h
        simp only [Except.map] at h
        cases h
        exact ih rest _ hdec
      | ok fields =>
        rw [hdec] at h
        simp [Except.map] at h

/-- C3: for every valid structured-settings object of either backend
schema, decoding the encoded blob returns the object unchanged
(`decode(encode(s)) = s`); a successful decode always yields an object
valid for the expected schema (so a blob with missing or wrongly typed
fields or unparseable content cannot decode), and every decode failure
is `SettingsDeserializationError`. -/
theorem pydantic_settings_roundtrip :
    (∀ o : SettingsObj, validFor RevSourceSettingSchema o →
      decodeFields RevSourceSettingSchema (encodeFields o) = .ok o) ∧
    (∀ o : SettingsObj, validFor ApiSourceSettingSchema o →
      decodeFields ApiSourceSettingSchema (encodeFields o) = .ok o) ∧
    (∀ (sd : SchemaDesc) (l : List Char) (o : SettingsObj),
      decodeFields sd l = .ok o → validFor sd o) ∧
    (∀ (sd : SchemaDesc) (l : List Char) (e : DBError),
      decodeFields sd l = .error e → e = DBError.SettingsDeserializationError) := by
  refine ⟨?_, ?_, ?_, decodeFields_error⟩
  · intro o h
    have h2 : objSig o = RevSourceSettingSchema := h
    rw [← h2]
    exact decodeFields_encodeFields o
  · intro o h
    have h2 : objSig o = ApiSourceSettingSchema := h
    rw [← h2]
    exact decodeFields_encodeFields o
  · intro sd l o h
    exact decodeFields_sig sd l o h

/-- Witness for C3: the round trip at a concrete valid `rev` settings
object. -/
theorem pydantic_settings_roundtrip_witness :
    decodeFields RevSourceSettingSchema (encodeFields revSettingsExample) =
      .ok revSettingsExample :=
  pydantic_settings_roundtrip.1 revSettingsExample (by decide)
